import Mathlib

/-!
Verification of the asynchronous video-analysis orchestration core of the
violence-detection repository (job admission, job state machine, progress
propagation, cancellation, retry, result caching, and the poll loop against
the remote analysis engine).

The repository contains two nearly-duplicate implementations:

* variant A: `src/backend/src/controllers/AnalysisController.ts` together
  with the first `QueueService` found in
  `src/backend/src/scripts/setupDirectories.ts` (the one without socket
  emission);
* variant B: the controller in `src/unnamed/part_000` together with the
  second `QueueService` in `setupDirectories.ts` (the one emitting socket
  events).

Both variants are embedded below.  Database rows (`analyses`,
`violence_detections`, `videos`, per `src/database/init.sql`), Bull queue
entries, and the Redis caches are modelled as Lean lists inside a single
`DBState`; each controller/worker routine becomes a pure function from
`DBState` (plus its request parameters, a fresh row id and a clock value)
to a result paired with the successor `DBState`.  Failure of the queue
transport during an operation is modelled by an explicit `enqueueOk` flag,
and the remote engine's poll answers by an explicit list of `PollResp`
values consumed by the poll-loop functions.
-/

namespace ViolenceDetection

/-- Job status stored in the `analyses.status` column
(`pending`, `processing`, `completed`, `failed`, `cancelled`). -/
inductive JStatus
  | pending
  | processing
  | completed
  | failed
  | cancelled
deriving DecidableEq, Repr

/-- Row of the `videos` table (only the columns the orchestration core reads:
the id used by `Video.findByPk` and the `storage_path` that variant B copies
into the queue payload). -/
structure VideoRec where
  id : Nat
  storagePath : String
deriving DecidableEq, Repr

/-- Row of the `analyses` table. Timestamps are abstract clock values
(`startedAt` has a `DEFAULT NOW()` in the schema, so it is set at creation). -/
structure JobRec where
  id : Nat
  videoId : Nat
  status : JStatus
  progress : Int
  confidenceThreshold : Rat
  totalFrames : Option Int
  violentFrames : Option Int
  errorMessage : Option String
  startedAt : Nat
  completedAt : Option Nat
deriving DecidableEq, Repr

/-- Bounding box as carried in the engine payload
(`ViolenceDetectionResult.boundingBoxes` in variant B's `QueueService`). -/
structure BoundingBox where
  x : Rat
  y : Rat
  width : Rat
  height : Rat
  confidence : Option Rat
deriving DecidableEq, Repr

/-- Row of the `violence_detections` table. -/
structure DetectionRec where
  analysisId : Nat
  timestampSeconds : Rat
  confidenceScore : Rat
  frameNumber : Nat
  boundingBoxes : Option (List BoundingBox)
deriving DecidableEq, Repr

/-- One detection as reported by the remote engine in a poll response. -/
structure DetIn where
  timestampSeconds : Rat
  confidenceScore : Rat
  frameNumber : Nat
  boundingBoxes : Option (List BoundingBox)
deriving DecidableEq, Repr

/-- Remote engine task status (`GET /analysis/{id}` `status` field). -/
inductive RStatus
  | pending
  | processing
  | completed
  | failed
deriving DecidableEq, Repr

/-- Successful body of a poll against the remote engine. -/
structure OkResp where
  status : RStatus
  progress : Int
  totalFrames : Option Int
  violentFrames : Option Int
  detections : List DetIn
  errorMessage : Option String
deriving DecidableEq, Repr

/-- One tick of the remote engine as observed by the worker: either a JSON
body, an HTTP 404 transport error, or any other transport error (connection
refused, timeout, 5xx, ...) carrying its message. -/
inductive PollResp
  | ok (r : OkResp)
  | notFound404
  | transport (msg : String)
deriving DecidableEq, Repr

/-- A Bull queue entry for the `video-analysis` queue.  Variant A sets the
Bull job id explicitly to the analysis id (`jobId: analysisId`); variant B
lets Bull assign one, so `bullId` is `none` there.  Variant B additionally
stores the video's storage path in the payload. -/
structure QueueEntry where
  bullId : Option Nat
  analysisId : Nat
  videoId : Nat
  videoPath : Option String
  confidenceThreshold : Rat
  frameInterval : Nat
  priority : Int
deriving DecidableEq, Repr

/-- The result object assembled by `getAnalysis` (the presentation-only
fields — formatted timestamps, percentages, severity labels — are pure
projections of these and are not repeated). -/
structure AnalysisResult where
  job : JobRec
  video : Option VideoRec
  detections : List DetectionRec
  jobStatus : Option QueueEntry
deriving DecidableEq, Repr

/-- Value stored in the Redis result cache.  `getAnalysis` caches its
controller-shaped result object, while the queue completion handlers cache
the raw engine payload; both land under `analysis:{id}:result`. -/
inductive CacheVal
  | api (r : AnalysisResult)
  | engine (r : OkResp)
deriving DecidableEq, Repr

/-- Combined durable / cache state visible to the orchestration core.
`resultCache` models keys `analysis:{id}:result`, `progressCache` models the
`progress` field of the `analysis:{id}:progress` entries (their stored
write-timestamp is not read anywhere and is elided), and `counters` models
the `counter:{name}` keys. -/
structure DBState where
  videos : List VideoRec
  jobs : List JobRec
  detections : List DetectionRec
  queue : List QueueEntry
  resultCache : List (Nat × CacheVal)
  progressCache : List (Nat × Int)
  counters : List (String × Int)
deriving DecidableEq, Repr

/-- `Video.findByPk`. -/
def findVideo (vs : List VideoRec) (v : Nat) : Option VideoRec :=
  vs.find? (fun x => x.id == v)

/-- `Analysis.findByPk`. -/
def findJob (jobs : List JobRec) (aid : Nat) : Option JobRec :=
  jobs.find? (fun j => j.id == aid)

/-- `Analysis.update(fields, { where: { id: aid } })`: apply the field update
to every row whose primary key matches. -/
def updateJob (jobs : List JobRec) (aid : Nat) (f : JobRec → JobRec) :
    List JobRec :=
  jobs.map (fun j => if j.id == aid then f j else j)

/-- Point lookup in an association list keyed by `Nat` (a Redis `GET`). -/
def lookupAssoc {A : Type} (l : List (Nat × A)) (k : Nat) : Option A :=
  (l.find? (fun kv => kv.1 == k)).map (fun kv => kv.2)

/-- Overwriting insert in an association list keyed by `Nat` (a Redis `SET`). -/
def setAssoc {A : Type} (l : List (Nat × A)) (k : Nat) (v : A) :
    List (Nat × A) :=
  l.filter (fun kv => !(kv.1 == k)) ++ [(k, v)]

/-- `CacheService.incrementCounter`: read the counter, add one, store back. -/
def incrementCounter (cs : List (String × Int)) (name : String) :
    List (String × Int) :=
  let n := (((cs.find? (fun kv => kv.1 == name)).map (fun kv => kv.2)).getD 0) + 1
  cs.filter (fun kv => !(kv.1 == name)) ++ [(name, n)]

/-- `CacheService.deleteAnalysisCache`: delete every `analysis:{id}:*` key,
i.e. both the result entry and the progress entry for that analysis. -/
def deleteAnalysisCache (s : DBState) (aid : Nat) : DBState :=
  { s with resultCache := s.resultCache.filter (fun kv => !(kv.1 == aid))
         , progressCache := s.progressCache.filter (fun kv => !(kv.1 == aid)) }

/-- `CacheService.cacheAnalysisProgress`. -/
def cacheAnalysisProgress (s : DBState) (aid : Nat) (p : Int) : DBState :=
  { s with progressCache := setAssoc s.progressCache aid p }

/-- `CacheService.cacheAnalysisResult`. -/
def cacheAnalysisResult (s : DBState) (aid : Nat) (v : CacheVal) : DBState :=
  { s with resultCache := setAssoc s.resultCache aid v }

/-- The admission filter of variant A's `startAnalysis`:
`Analysis.findOne({ where: { video_id: videoId, status: ['pending', 'processing'] } })`. -/
def admActiveA (v : Nat) (j : JobRec) : Bool :=
  j.videoId == v && (j.status == .pending || j.status == .processing)

/-- The admission filter of variant B's `startAnalysis`:
`status: ['pending', 'processing', 'completed']`. -/
def admActiveB (v : Nat) (j : JobRec) : Bool :=
  j.videoId == v &&
    (j.status == .pending || j.status == .processing || j.status == .completed)

/-- The fresh `analyses` row created by admission:
`Analysis.create({ video_id, status: 'pending', progress: 0, confidence_threshold })`. -/
def newJobRec (nid v : Nat) (ct : Rat) (now : Nat) : JobRec :=
  { id := nid, videoId := v, status := .pending, progress := 0,
    confidenceThreshold := ct, totalFrames := none, violentFrames := none,
    errorMessage := none, startedAt := now, completedAt := none }

/-- Outcome of variant A's `startAnalysis` (HTTP codes in the source:
404 `videoNotFound`, 409 `conflict`, 201 `created`, 500 `enqueueFailed`). -/
inductive StartResultA
  | videoNotFound
  | conflict
  | created (analysisId : Nat)
  | enqueueFailed
deriving DecidableEq, Repr

/-- Variant A `AnalysisController.startAnalysis`.  `nid` is the UUID the
database assigns to the new row, `now` the clock, `enqueueOk` whether the
Bull transport accepts the job. -/
def startAnalysisA (s : DBState) (v : Nat) (ct : Rat) (fi : Nat) (pr : Int)
    (nid now : Nat) (enqueueOk : Bool) : StartResultA × DBState :=
  match findVideo s.videos v with
  | none => (.videoNotFound, s)
  | some _ =>
    match s.jobs.find? (admActiveA v) with
    | some _ => (.conflict, s)
    | none =>
      let created := { s with jobs := s.jobs ++ [newJobRec nid v ct now] }
      if enqueueOk then
        let entry : QueueEntry :=
          { bullId := some nid, analysisId := nid, videoId := v,
            videoPath := none, confidenceThreshold := ct,
            frameInterval := fi, priority := pr }
        (.created nid,
         { created with
             queue := created.queue ++ [entry]
           , counters := incrementCounter created.counters "analyses_started" })
      else
        -- catch block: `await analysis.destroy()` then rethrow as a 500
        (.enqueueFailed,
         { created with jobs := created.jobs.filter (fun j => !(j.id == nid)) })

/-- Outcome of variant B's `startAnalysis` (the `already` responses carry the
existing analysis id, status and progress from the source's JSON bodies). -/
inductive StartResultB
  | videoNotFound
  | already (message : String) (analysisId : Nat) (st : JStatus) (progress : Int)
  | created (analysisId : Nat)
  | startFailed
deriving DecidableEq, Repr

/-- Variant B `startAnalysis` (from `src/unnamed/part_000`).  Its catch block
wraps both `Analysis.create` and the enqueue, and rethrows a 500 without
destroying anything, so an enqueue failure leaves the created row behind. -/
def startAnalysisB (s : DBState) (v : Nat) (ct : Rat) (fi : Nat)
    (nid now : Nat) (enqueueOk : Bool) : StartResultB × DBState :=
  match findVideo s.videos v with
  | none => (.videoNotFound, s)
  | some video =>
    match s.jobs.find? (admActiveB v) with
    | some j =>
      if j.status == .completed then
        (.already "Analysis already completed" j.id j.status j.progress, s)
      else
        (.already "Analysis already in progress" j.id j.status j.progress, s)
    | none =>
      let created := { s with jobs := s.jobs ++ [newJobRec nid v ct now] }
      if enqueueOk then
        let entry : QueueEntry :=
          { bullId := none, analysisId := nid, videoId := v,
            videoPath := some video.storagePath, confidenceThreshold := ct,
            frameInterval := fi, priority := 0 }
        (.created nid,
         cacheAnalysisProgress
           { created with queue := created.queue ++ [entry] } nid 0)
      else
        (.startFailed, created)

/-- Variant A `QueueService.updateAnalysisProgress`: write `progress` (plus
`total_frames` when the extra datum is truthy — JavaScript skips both
`undefined` and `0` — and `violent_frames` when it is not `undefined`) to the
`analyses` row, then cache the progress snapshot. -/
def updateAnalysisProgress (s : DBState) (aid : Nat) (p : Int)
    (tf vf : Option Int) : DBState :=
  let s1 := { s with jobs := updateJob s.jobs aid (fun j =>
    { j with progress := p
           , totalFrames := match tf with
               | some n => if n == 0 then j.totalFrames else some n
               | none => j.totalFrames
           , violentFrames := match vf with
               | some n => some n
               | none => j.violentFrames }) }
  cacheAnalysisProgress s1 aid p

/-- The `violence_detections` row built from one reported detection
(the mapping inside `saveDetectionResults` / `storeAnalysisResults`). -/
def detRowOf (aid : Nat) (d : DetIn) : DetectionRec :=
  { analysisId := aid, timestampSeconds := d.timestampSeconds,
    confidenceScore := d.confidenceScore, frameNumber := d.frameNumber,
    boundingBoxes := d.boundingBoxes }

/-- Variant A `QueueService.saveDetectionResults`:
`ViolenceDetection.bulkCreate` of one row per reported detection. -/
def saveDetectionResults (s : DBState) (aid : Nat) (dets : List DetIn) :
    DBState :=
  { s with detections := s.detections ++ dets.map (detRowOf aid) }

/-- Variant A's failure bookkeeping (the catch block of
`processVideoAnalysis`, lines 319–325, repeated verbatim by the queue
`failed`-event handler `handleJobFailure`):
`Analysis.update({ status: 'failed', error_message }, { where: { id } })`.
Note that no `completed_at` is written on this path. -/
def failJobA (s : DBState) (aid : Nat) (msg : String) : DBState :=
  { s with jobs := updateJob s.jobs aid (fun j =>
      { j with status := .failed, errorMessage := some msg }) }

/-- Result of one iteration of variant A's poll loop. -/
inductive StepA
  | next (s : DBState) (lastProgress : Int)
  | done (s : DBState) (result : OkResp)
  | fail (s : DBState) (msg : String)
deriving DecidableEq, Repr

/-- One iteration of variant A's poll loop (`processVideoAnalysis`,
lines 264–314).  Faithful details:

* a progress value is written only when it strictly exceeds `lastProgress`
  (`if (analysisResult.progress > lastProgress)`); the Bull `progress` event
  fired by `job.progress(...)` performs the same row update with no extra
  fields, so its effect is subsumed by the loop's own
  `updateAnalysisProgress` call;
* on remote `completed`, detections are bulk-inserted when non-empty and the
  row is set to `completed` — the local status is never consulted;
* on remote `failed`, the loop throws an `Error`, but that throw happens
  inside the loop's own `try`, whose `catch` rethrows only errors with
  `response.status === 404`; a plain `Error` has no `response`, so it is
  logged and the loop keeps polling;
* an HTTP 404 poll error is rethrown, reaching the outer catch which marks
  the job failed;
* any other transport error is logged and the loop continues unchanged. -/
def pollStepA (s : DBState) (aid : Nat) (lastProgress : Int) (now : Nat)
    (r : PollResp) : StepA :=
  match r with
  | .notFound404 =>
    .fail (failJobA s aid "Analysis not found in AI service")
      "Analysis not found in AI service"
  | .transport _ => .next s lastProgress
  | .ok resp =>
    let st := if resp.progress > lastProgress then
        updateAnalysisProgress s aid resp.progress resp.totalFrames
          resp.violentFrames
      else s
    let lp := if resp.progress > lastProgress then resp.progress
      else lastProgress
    if resp.status = .completed then
      let st := if resp.detections.isEmpty then st
        else saveDetectionResults st aid resp.detections
      let st := { st with jobs := updateJob st.jobs aid (fun j =>
        { j with status := .completed, progress := 100,
                 completedAt := some now,
                 totalFrames := resp.totalFrames,
                 violentFrames := resp.violentFrames }) }
      .done st resp
    else
      .next st lp

/-- Outcome of running variant A's poll loop over a finite prefix of the
remote engine's answers: it either reached a terminal outcome or is still
polling when the observed answers run out. -/
inductive PollOutA
  | finished (s : DBState) (result : OkResp)
  | failedRun (s : DBState) (msg : String)
  | polling (s : DBState) (lastProgress : Int)
deriving DecidableEq, Repr

/-- Variant A's poll loop driven by an explicit list of remote answers. -/
def runPollA (s : DBState) (aid : Nat) (lastProgress : Int) (now : Nat) :
    List PollResp → PollOutA
  | [] => .polling s lastProgress
  | r :: rest =>
    match pollStepA s aid lastProgress now r with
    | .next s1 lp1 => runPollA s1 aid lp1 now rest
    | .done s1 res => .finished s1 res
    | .fail s1 msg => .failedRun s1 msg

/-- Result of one iteration of variant B's `pollAIAnalysis` loop:
`raise` means the error propagates out of the poll loop (and, after the
queue's attempts are exhausted, into the `failed`-event handler). -/
inductive StepB
  | next (s : DBState) (lastProgress : Int)
  | done (s : DBState) (result : OkResp)
  | raise (s : DBState) (msg : String)
deriving DecidableEq, Repr

/-- One iteration of variant B's poll loop (`pollAIAnalysis`, lines 811–843).
Its progress guard is `aiResult.progress !== lastProgress` (any change, not
only increases), and the resulting `job.progress(...)` reaches variant B's
`progress`-event handler, which only caches the value (no `analyses` row
update).  Its catch rethrows: 404 becomes `new Error('AI analysis not
found')`, every other error is rethrown as-is — no retry of any kind. -/
def pollStepB (s : DBState) (aid : Nat) (lastProgress : Int) (r : PollResp) :
    StepB :=
  match r with
  | .notFound404 => .raise s "AI analysis not found"
  | .transport msg => .raise s msg
  | .ok resp =>
    let st := if resp.progress ≠ lastProgress then
        cacheAnalysisProgress s aid resp.progress
      else s
    let lp := if resp.progress ≠ lastProgress then resp.progress
      else lastProgress
    if resp.status = .completed then
      .done st resp
    else if resp.status = .failed then
      .raise st (resp.errorMessage.getD "AI analysis failed")
    else
      .next st lp

/-- Variant B's queue `failed`-event handler (lines 702–723):
`Analysis.update({ status: 'failed', error_message, completed_at: new Date() })`. -/
def onFailedB (s : DBState) (aid : Nat) (msg : String) (now : Nat) : DBState :=
  { s with jobs := updateJob s.jobs aid (fun j =>
      { j with status := .failed, errorMessage := some msg,
               completedAt := some now }) }

/-- Variant B's queue `completed`-event handler (lines 675–699):
set the row to `completed`, `progress = 100`, `completed_at = now`, and cache
the raw engine result — again without consulting the local status. -/
def onCompletedB (s : DBState) (aid : Nat) (result : OkResp) (now : Nat) :
    DBState :=
  let s1 := { s with jobs := updateJob s.jobs aid (fun j =>
      { j with status := .completed, progress := 100,
               completedAt := some now }) }
  cacheAnalysisResult s1 aid (.engine result)

/-- Outcome of variant A's `stopAnalysis` (400 `notInProgress` when the job
is not pending/processing, 500 `stopFailed` when `cancelJob` returns false). -/
inductive StopResultA
  | notFound
  | notInProgress
  | stopped (analysisId : Nat)
  | stopFailed
deriving DecidableEq, Repr

/-- Variant A `AnalysisController.stopAnalysis` plus the
`QueueService.cancelJob` it calls: look the Bull job up by its id (variant A
created it with `jobId = analysisId`), remove it, set the row to `cancelled`
(nothing else — no `completed_at`, no `error_message`), then clear the
analysis cache. -/
def stopAnalysisA (s : DBState) (aid : Nat) : StopResultA × DBState :=
  match findJob s.jobs aid with
  | none => (.notFound, s)
  | some a =>
    if a.status ≠ .processing ∧ a.status ≠ .pending then
      (.notInProgress, s)
    else
      match s.queue.find? (fun e => e.bullId == some aid) with
      | none => (.stopFailed, s)
      | some _ =>
        let s1 := { s with
          queue := s.queue.filter (fun e => !(e.bullId == some aid))
        , jobs := updateJob s.jobs aid (fun j => { j with status := .cancelled }) }
        (.stopped aid, deleteAnalysisCache s1 aid)

/-- Outcome of variant B's `stopAnalysis` (the two `already*` answers are the
`success: false` JSON bodies of the source). -/
inductive StopResultB
  | notFound
  | alreadyCompleted
  | alreadyFailed
  | stopped
deriving DecidableEq, Repr

/-- Variant B `stopAnalysis` (from `src/unnamed/part_000`): only `completed`
and `failed` are rejected; any other status — including `cancelled` — is
updated to `cancelled` with `completed_at = now` and the fixed error
message, after which the analysis cache is cleared.  The queue entry is
never cancelled. -/
def stopAnalysisB (s : DBState) (aid : Nat) (now : Nat) :
    StopResultB × DBState :=
  match findJob s.jobs aid with
  | none => (.notFound, s)
  | some a =>
    if a.status = .completed then (.alreadyCompleted, s)
    else if a.status = .failed then (.alreadyFailed, s)
    else
      let s1 := { s with jobs := updateJob s.jobs aid (fun j =>
        { j with status := .cancelled, completedAt := some now,
                 errorMessage := some "Analysis cancelled by user" }) }
      (.stopped, deleteAnalysisCache s1 aid)

/-- Outcome of `getAnalysis`. -/
inductive GetResultA
  | cachedHit (v : CacheVal)
  | found (r : AnalysisResult)
  | notFound
deriving DecidableEq, Repr

/-- The result object variant A's `getAnalysis` assembles from the database
row (the queue status is looked up only while the job is still
pending/processing; detection ordering is by insertion, the `ORDER BY
timestamp_seconds` of the source being a permutation not needed by any
claim). -/
def buildResult (s : DBState) (j : JobRec) : AnalysisResult :=
  { job := j
  , video := findVideo s.videos j.videoId
  , detections := s.detections.filter (fun d => d.analysisId == j.id)
  , jobStatus := if j.status = .processing ∨ j.status = .pending then
        s.queue.find? (fun e => e.bullId == some j.id)
      else none }

/-- Variant A `AnalysisController.getAnalysis`: serve from the result cache
when present; otherwise read the row (404 when absent), assemble the result,
and cache it when the job is `completed`. -/
def getAnalysisA (s : DBState) (aid : Nat) : GetResultA × DBState :=
  match lookupAssoc s.resultCache aid with
  | some v => (.cachedHit v, s)
  | none =>
    match findJob s.jobs aid with
    | none => (.notFound, s)
    | some j =>
      let r := buildResult s j
      (.found r,
       if j.status = .completed then cacheAnalysisResult s aid (.api r) else s)

/-- Outcome of variant A's `retryAnalysis` (400 `invalidState` carries the
source's "Only failed analyses can be retried"). -/
inductive RetryResult
  | notFound
  | invalidState
  | ok (analysisId : Nat)
  | serverError
deriving DecidableEq, Repr

/-- The fresh queue entry enqueued by `retryAnalysis`: the row's stored
`video_id` and `confidence_threshold`, with the source's hard-coded default
frame interval `1` and priority `0`. -/
def retryEntry (aid : Nat) (j : JobRec) : QueueEntry :=
  { bullId := some aid, analysisId := aid, videoId := j.videoId,
    videoPath := none, confidenceThreshold := j.confidenceThreshold,
    frameInterval := 1, priority := 0 }

/-- Variant A `AnalysisController.retryAnalysis`: legal only from `failed`;
reset the row to `pending` with `progress = 0` and cleared
`error_message`/`completed_at`, destroy the job's detections, re-enqueue
using the row's stored `video_id` and `confidence_threshold` (frame interval
and priority are the documented defaults `1` and `0`), then clear the
analysis cache.  An enqueue failure surfaces as a 500 after the row and
detection mutations have already happened. -/
def retryAnalysisA (s : DBState) (aid : Nat) (enqueueOk : Bool) :
    RetryResult × DBState :=
  match findJob s.jobs aid with
  | none => (.notFound, s)
  | some j =>
    if j.status ≠ .failed then (.invalidState, s)
    else
      let s1 := { s with jobs := updateJob s.jobs aid (fun x =>
        { x with status := .pending, progress := 0, errorMessage := none,
                 completedAt := none }) }
      let s2 := { s1 with
        detections := s1.detections.filter (fun d => !(d.analysisId == aid)) }
      if enqueueOk then
        (.ok aid,
         deleteAnalysisCache
           { s2 with queue := s2.queue ++ [retryEntry aid j] } aid)
      else
        (.serverError, s2)

/-- `CacheService.getKey`: keys are namespaced under `violence_detection:`. -/
def redisKey (key : String) : String := "violence_detection:" ++ key

/-- `CacheService.get`, parameterised by the deserialiser standing for
`JSON.parse` (`decode v = none` models a parse exception).  Faithful
details: a missing value — or an empty string, which is falsy in
JavaScript — yields `null` untouched; a present value that fails to parse is
deleted from the store (`await this.delete(key)`) and `null` is returned;
no error ever escapes to the caller. -/
def cacheGetRaw {V : Type} (decode : String → Option V)
    (store : List (String × String)) (key : String) :
    Option V × List (String × String) :=
  let ck := redisKey key
  match (store.find? (fun kv => kv.1 == ck)).map (fun kv => kv.2) with
  | none => (none, store)
  | some v =>
    if v == "" then (none, store)
    else
      match decode v with
      | some x => (some x, store)
      | none => (none, store.filter (fun kv => !(kv.1 == ck)))

/-- Number of non-terminal (pending/processing) jobs recorded for a video. -/
def nonTermCount (jobs : List JobRec) (v : Nat) : Nat :=
  (jobs.filter (admActiveA v)).length

/-- Invariant (a) of the data model: at most one non-terminal job per video. -/
def atMostOneActive (jobs : List JobRec) : Prop :=
  ∀ v, nonTermCount jobs v ≤ 1

/-! ### Shared lemmas about the embedded store operations -/

lemma findJob_updateJob (jobs : List JobRec) (aid : Nat) (f : JobRec → JobRec)
    (hf : ∀ j, (f j).id = j.id) :
    findJob (updateJob jobs aid f) aid = (findJob jobs aid).map f := by
  induction jobs with
  | nil => rfl
  | cons a t ih =>
    simp only [findJob, updateJob, List.map_cons] at ih ⊢
    cases hb : (a.id == aid) with
    | true =>
      have hfb : ((f a).id == aid) = true := by rw [hf a]; exact hb
      rw [List.find?_cons, List.find?_cons]
      simp [hb, hfb]
    | false =>
      have hred : (if false = true then f a else a) = a := rfl
      rw [hred, List.find?_cons, List.find?_cons, hb]
      exact ih

lemma admActiveA_imp_admActiveB (v : Nat) (j : JobRec)
    (h : admActiveA v j = true) : admActiveB v j = true := by
  simp only [admActiveA, Bool.and_eq_true, Bool.or_eq_true] at h
  simp only [admActiveB, Bool.and_eq_true, Bool.or_eq_true]
  exact ⟨h.1, Or.inl h.2⟩

lemma nonTermCount_filter_le (jobs : List JobRec) (q : JobRec → Bool)
    (v : Nat) : nonTermCount (jobs.filter q) v ≤ nonTermCount jobs v := by
  have h :=
    (((List.filter_sublist (p := q) jobs)).filter (admActiveA v)).length_le
  simpa [nonTermCount] using h

lemma atMostOneActive_append_new
    (jobs : List JobRec) (nid v : Nat) (ct : Rat) (now : Nat)
    (hnone : ∀ j ∈ jobs, admActiveA v j = false)
    (hU : atMostOneActive jobs) :
    atMostOneActive (jobs ++ [newJobRec nid v ct now]) := by
  intro v'
  rw [nonTermCount, List.filter_append, List.length_append]
  by_cases hv : v' = v
  · subst hv
    have h0 : jobs.filter (admActiveA v') = [] := by
      rw [List.filter_eq_nil_iff]
      intro a ha
      simp [hnone a ha]
    simp only [h0, List.length_nil, Nat.zero_add]
    cases hx : admActiveA v' (newJobRec nid v' ct now) <;>
      simp [List.filter, hx]
  · have h1 : admActiveA v' (newJobRec nid v ct now) = false := by
      simp only [admActiveA, newJobRec, Bool.and_eq_false_iff]
      left
      simp [Ne.symm hv]
    simp only [List.filter, h1, List.length_nil, Nat.add_zero]
    exact hU v'

/-! ### Concrete fixtures used by witnesses and counterexamples -/

/-- A stored video, id 7. -/
def video7 : VideoRec := { id := 7, storagePath := "uploads/v7.mp4" }

/-- A store holding one video and nothing else. -/
def baseState : DBState :=
  { videos := [video7], jobs := [], detections := [], queue := [],
    resultCache := [], progressCache := [], counters := [] }

/-- A pending analysis row for video 7. -/
def jobPending1 : JobRec :=
  { id := 1, videoId := 7, status := .pending, progress := 0,
    confidenceThreshold := 7/10, totalFrames := none, violentFrames := none,
    errorMessage := none, startedAt := 0, completedAt := none }

/-- The queue entry admitted together with `jobPending1` (variant A shape). -/
def entry1 : QueueEntry :=
  { bullId := some 1, analysisId := 1, videoId := 7, videoPath := none,
    confidenceThreshold := 7/10, frameInterval := 1, priority := 0 }

/-- State with one admitted pending job and its queue entry. -/
def statePending : DBState :=
  { baseState with jobs := [jobPending1], queue := [entry1] }

/-- The same job mid-run. -/
def jobProcessing1 : JobRec :=
  { jobPending1 with status := .processing, progress := 40 }

/-- State with one processing job. -/
def stateProcessing : DBState := { baseState with jobs := [jobProcessing1] }

/-- A detection row left over from a previous (failed) run of job 1. -/
def oldDet : DetectionRec :=
  { analysisId := 1, timestampSeconds := 2, confidenceScore := 8/10,
    frameNumber := 50, boundingBoxes := none }

/-- The job after a failed run. -/
def jobFailed1 : JobRec :=
  { jobPending1 with
    status := .failed, progress := 60,
    errorMessage := some "decode error", completedAt := some 4 }

/-- State with one failed job and one leftover detection. -/
def stateFailed : DBState :=
  { baseState with jobs := [jobFailed1], detections := [oldDet] }

/-- The job after a user cancellation (variant B shape of the row). -/
def jobCancelled1 : JobRec :=
  { jobPending1 with
    status := .cancelled, progress := 40,
    errorMessage := some "Analysis cancelled by user", completedAt := some 5 }

/-- State with one cancelled job. -/
def stateCancelled : DBState := { baseState with jobs := [jobCancelled1] }

/-- A detection reported by the remote engine after the local cancellation. -/
def lateDet : DetIn :=
  { timestampSeconds := 3, confidenceScore := 9/10, frameNumber := 90,
    boundingBoxes := none }

/-- A late-arriving `completed` poll body for the cancelled job. -/
def lateCompleted : OkResp :=
  { status := .completed, progress := 100, totalFrames := some 120,
    violentFrames := some 2, detections := [lateDet], errorMessage := none }

/-! ### C1 -/

/-- C1: admission is duplicate-free.  If a video already has a non-terminal
(pending/processing) analysis, variant A's `startAnalysis` answers
`Conflict` (HTTP 409) with the store untouched, and variant B's
`startAnalysis` answers with an existing analysis' id/status/progress, also
leaving the store untouched — in particular neither creates a second job row
or a second queue entry.  Moreover both admission paths preserve the
invariant that each video has at most one non-terminal job. -/
theorem c1_admission_no_duplicate :
    (∀ (s : DBState) (v : Nat) (ct : Rat) (fi : Nat) (pr : Int)
        (nid now : Nat) (ok : Bool),
        (findVideo s.videos v).isSome →
        (∃ j ∈ s.jobs, j.videoId = v ∧
            (j.status = .pending ∨ j.status = .processing)) →
        startAnalysisA s v ct fi pr nid now ok = (.conflict, s) ∧
        ∃ j' ∈ s.jobs, j'.videoId = v ∧ ∃ m,
          startAnalysisB s v ct fi nid now ok =
            (.already m j'.id j'.status j'.progress, s)) ∧
    (∀ (s : DBState) (v : Nat) (ct : Rat) (fi : Nat) (pr : Int)
        (nid now : Nat) (ok : Bool),
        atMostOneActive s.jobs →
        atMostOneActive (startAnalysisA s v ct fi pr nid now ok).2.jobs ∧
        atMostOneActive (startAnalysisB s v ct fi nid now ok).2.jobs) := by
  constructor
  · intro s v ct fi pr nid now ok hv hex
    obtain ⟨vid, hvid⟩ := Option.isSome_iff_exists.mp hv
    obtain ⟨j, hmem, hjv, hjst⟩ := hex
    have hpa : admActiveA v j = true := by
      simp only [admActiveA, Bool.and_eq_true, Bool.or_eq_true, beq_iff_eq]
      exact ⟨hjv, hjst⟩
    obtain ⟨jA, hjA⟩ :=
      Option.isSome_iff_exists.mp (List.find?_isSome.mpr ⟨j, hmem, hpa⟩)
    obtain ⟨jB, hjB⟩ :=
      Option.isSome_iff_exists.mp
        (List.find?_isSome.mpr ⟨j, hmem, admActiveA_imp_admActiveB v j hpa⟩)
    have hmemB := List.mem_of_find?_eq_some hjB
    have hprB := List.find?_some hjB
    have hvB : jB.videoId = v := by
      simp only [admActiveB, Bool.and_eq_true, beq_iff_eq] at hprB
      exact hprB.1
    refine ⟨by simp [startAnalysisA, hvid, hjA], jB, hmemB, hvB, ?_⟩
    by_cases hc : jB.status = .completed
    · exact ⟨"Analysis already completed",
        by simp [startAnalysisB, hvid, hjB, hc]⟩
    · exact ⟨"Analysis already in progress",
        by simp [startAnalysisB, hvid, hjB, hc]⟩
  · intro s v ct fi pr nid now ok hU
    constructor
    · cases hfv : findVideo s.videos v with
      | none => simpa [startAnalysisA, hfv] using hU
      | some vid =>
        cases hfa : s.jobs.find? (admActiveA v) with
        | some j => simpa [startAnalysisA, hfv, hfa] using hU
        | none =>
          have hnone : ∀ j ∈ s.jobs, admActiveA v j = false := by
            intro j hj
            have := List.find?_eq_none.mp hfa j hj
            simpa using this
          cases ok with
          | true =>
            simp only [startAnalysisA, hfv, hfa]
            exact atMostOneActive_append_new s.jobs nid v ct now hnone hU
          | false =>
            simp only [startAnalysisA, hfv, hfa]
            intro v'
            exact le_trans
              (nonTermCount_filter_le _ _ v')
              (atMostOneActive_append_new s.jobs nid v ct now hnone hU v')
    · cases hfv : findVideo s.videos v with
      | none => simpa [startAnalysisB, hfv] using hU
      | some vid =>
        cases hfb : s.jobs.find? (admActiveB v) with
        | some j =>
          by_cases hc : j.status = .completed <;>
            simpa [startAnalysisB, hfv, hfb, hc] using hU
        | none =>
          have hnone : ∀ j ∈ s.jobs, admActiveA v j = false := by
            intro j hj
            have hb := List.find?_eq_none.mp hfb j hj
            cases hx : admActiveA v j with
            | false => rfl
            | true => exact absurd (admActiveA_imp_admActiveB v j hx) hb
          cases ok with
          | true =>
            simp only [startAnalysisB, hfv, hfb, cacheAnalysisProgress]
            exact atMostOneActive_append_new s.jobs nid v ct now hnone hU
          | false =>
            simp only [startAnalysisB, hfv, hfb]
            exact atMostOneActive_append_new s.jobs nid v ct now hnone hU

/-- Witness for C1 at a concrete state: video 7 has a pending analysis
(id 1), so a second admission for video 7 conflicts in variant A and leaves
the state unchanged. -/
theorem c1_admission_no_duplicate_witness :
    startAnalysisA statePending 7 (7/10) 1 0 99 3 true =
      (.conflict, statePending) :=
  (c1_admission_no_duplicate.1 statePending 7 (7/10) 1 0 99 3 true
    (by decide)
    ⟨jobPending1, by simp [statePending], rfl, Or.inl rfl⟩).1

/-! ### C3 -/

lemma filter_after_erasing {α : Type} (l : List α) (p : α → Bool) :
    (l.filter (fun x => !(p x))).filter p = [] := by
  rw [List.filter_eq_nil_iff]
  intro x hx
  have hmem := List.of_mem_filter hx
  simp only [Bool.not_eq_true'] at hmem
  simp [hmem]

/-- C3 counterexample: in variant B (`src/unnamed/part_000`), an enqueue
failure after `Analysis.create` is answered with a 500 while the freshly
created pending row is left behind — an orphan pending job remains after the
failed `startAnalysis`, contradicting the claim. -/
theorem c3_orphan_counterexample :
    (startAnalysisB baseState 7 (7/10) 1 2 0 false).1 = .startFailed ∧
    ((startAnalysisB baseState 7 (7/10) 1 2 0 false).2.jobs.filter
        (fun j => j.status == .pending)).length = 1 := by
  constructor <;> rfl

/-- C3 (amended): rollback of the job row on enqueue failure holds for
variant A only.  In variant A (`AnalysisController.ts`), when the queue
rejects the entry after the pending row was created, the row is destroyed
and the 500 is surfaced with the store exactly as before the call.  In
variant B the same failure surfaces a 500 with the created pending row still
present (no rollback). -/
theorem c3_rollback_amended :
    (∀ (s : DBState) (v : Nat) (ct : Rat) (fi : Nat) (pr : Int)
        (nid now : Nat) (vid : VideoRec),
        findVideo s.videos v = some vid →
        s.jobs.find? (admActiveA v) = none →
        (∀ j ∈ s.jobs, j.id ≠ nid) →
        startAnalysisA s v ct fi pr nid now false = (.enqueueFailed, s)) ∧
    (∀ (s : DBState) (v : Nat) (ct : Rat) (fi : Nat)
        (nid now : Nat) (vid : VideoRec),
        findVideo s.videos v = some vid →
        s.jobs.find? (admActiveB v) = none →
        startAnalysisB s v ct fi nid now false =
          (.startFailed,
           { s with jobs := s.jobs ++ [newJobRec nid v ct now] })) := by
  constructor
  · intro s v ct fi pr nid now vid hv hfa hfresh
    have hfilter :
        (s.jobs ++ [newJobRec nid v ct now]).filter (fun j => !(j.id == nid))
          = s.jobs := by
      rw [List.filter_append]
      have h1 : s.jobs.filter (fun j => !(j.id == nid)) = s.jobs :=
        List.filter_eq_self.mpr (by intro j hj; simpa using hfresh j hj)
      have h2 : ([newJobRec nid v ct now].filter
          (fun j => !(j.id == nid))) = [] := by
        simp [newJobRec]
      rw [h1, h2, List.append_nil]
    simp [startAnalysisA, hv, hfa, hfilter]
  · intro s v ct fi nid now vid hv hfb
    simp [startAnalysisB, hv, hfb]

/-- Witness for the amended C3 at a concrete state: with video 7 present and
no job yet, a failing enqueue in variant A leaves the store exactly
unchanged. -/
theorem c3_rollback_amended_witness :
    startAnalysisA baseState 7 (7/10) 1 0 2 0 false =
      (.enqueueFailed, baseState) :=
  c3_rollback_amended.1 baseState 7 (7/10) 1 0 2 0 video7 rfl rfl
    (by intro j hj; simp [baseState] at hj)

/-! ### C5 -/

/-- C5: `retryAnalysis` is legal exactly from `failed`.  From any other
status of an existing job it answers `InvalidState` (HTTP 400) with no
mutation.  From `failed` it clears `error_message` (and `completed_at`),
resets `progress` to 0, transitions the row to `pending`, deletes every
detection of the job — so a simulated re-completion inserting `dets`
detections leaves exactly `dets.length` of them — and appends one fresh
queue entry built from the row's stored video id and confidence threshold
(with the default frame interval 1 and priority 0). -/
theorem c5_retry_semantics :
    (∀ (s : DBState) (aid : Nat) (ok : Bool) (j : JobRec),
        findJob s.jobs aid = some j → j.status ≠ .failed →
        retryAnalysisA s aid ok = (.invalidState, s)) ∧
    (∀ (s : DBState) (aid : Nat) (j : JobRec),
        findJob s.jobs aid = some j → j.status = .failed →
        (retryAnalysisA s aid true).1 = .ok aid ∧
        findJob (retryAnalysisA s aid true).2.jobs aid =
          some { j with status := .pending, progress := 0,
                        errorMessage := none, completedAt := none } ∧
        (retryAnalysisA s aid true).2.detections.filter
          (fun d => d.analysisId == aid) = [] ∧
        (retryAnalysisA s aid true).2.queue = s.queue ++ [retryEntry aid j] ∧
        (∀ dets : List DetIn,
          ((saveDetectionResults (retryAnalysisA s aid true).2 aid
              dets).detections.filter
            (fun d => d.analysisId == aid)).length = dets.length)) := by
  constructor
  · intro s aid ok j hfind hst
    simp [retryAnalysisA, hfind, hst]
  · intro s aid j hfind hst
    have hjobs : (retryAnalysisA s aid true).2.jobs =
        updateJob s.jobs aid (fun x =>
          { x with status := .pending, progress := 0, errorMessage := none,
                   completedAt := none }) := by
      simp [retryAnalysisA, hfind, hst, deleteAnalysisCache]
    have hdets : (retryAnalysisA s aid true).2.detections =
        s.detections.filter (fun d => !(d.analysisId == aid)) := by
      simp [retryAnalysisA, hfind, hst, deleteAnalysisCache]
    have hqueue : (retryAnalysisA s aid true).2.queue =
        s.queue ++ [retryEntry aid j] := by
      simp [retryAnalysisA, hfind, hst, deleteAnalysisCache]
    refine ⟨by simp [retryAnalysisA, hfind, hst], ?_, ?_, hqueue, ?_⟩
    · have hupd := findJob_updateJob s.jobs aid (fun x =>
        { x with status := JStatus.pending, progress := 0,
                 errorMessage := none, completedAt := none }) (fun _ => rfl)
      rw [hjobs, hupd, hfind]
      rfl
    · rw [hdets]
      exact filter_after_erasing s.detections (fun d => d.analysisId == aid)
    · intro dets
      have hall : ((dets.map (detRowOf aid)).filter
          (fun d => d.analysisId == aid)) = dets.map (detRowOf aid) :=
        List.filter_eq_self.mpr (by
          intro x hx
          obtain ⟨d, -, rfl⟩ := List.mem_map.mp hx
          simp [detRowOf])
      simp only [saveDetectionResults, List.filter_append, hdets,
        filter_after_erasing, hall, List.nil_append, List.length_map]

/-- Witness for C5: retrying the cancelled job 1 is rejected with no
mutation, and retrying the failed job 1 succeeds. -/
theorem c5_retry_semantics_witness :
    retryAnalysisA stateCancelled 1 true = (.invalidState, stateCancelled) ∧
    (retryAnalysisA stateFailed 1 true).1 = .ok 1 := by
  exact ⟨c5_retry_semantics.1 stateCancelled 1 true jobCancelled1 rfl
    (by decide),
    (c5_retry_semantics.2 stateFailed 1 jobFailed1 rfl rfl).1⟩

/-! ### C9 -/

/-- C9: `getAnalysis` treats the result cache as non-authoritative.  Under
cache/store coherence (a cached entry for the id implies the row exists),
`getAnalysis` answers `NotFound` (HTTP 404) exactly when the job row is
absent from the store; in particular a mere cache miss with the row present
falls back to the store and is never reported as job-not-found. -/
theorem c9_cache_fallback :
    ∀ (s : DBState) (aid : Nat),
      (∀ v, lookupAssoc s.resultCache aid = some v →
        (findJob s.jobs aid).isSome) →
      ((getAnalysisA s aid).1 = .notFound ↔ findJob s.jobs aid = none) := by
  intro s aid hco
  cases hc : lookupAssoc s.resultCache aid with
  | some v =>
    have hs := hco v hc
    constructor
    · intro h
      simp [getAnalysisA, hc] at h
    · intro h
      rw [h] at hs
      simp at hs
  | none =>
    cases hf : findJob s.jobs aid with
    | none => simp [getAnalysisA, hc, hf]
    | some j => simp [getAnalysisA, hc, hf]

/-- Witness for C9 at a concrete state with an empty cache and job 1
present: the coherence hypothesis holds vacuously and `getAnalysis` does not
answer not-found. -/
theorem c9_cache_fallback_witness :
    ((getAnalysisA stateProcessing 1).1 = GetResultA.notFound ↔
      findJob stateProcessing.jobs 1 = none) :=
  c9_cache_fallback stateProcessing 1
    (by intro v hv; simp [stateProcessing, baseState, lookupAssoc] at hv)

/-! ### C10 -/

/-- C10: `CacheService.get` never propagates a deserialisation failure.  If
the stored string for a key is present, non-empty and fails to parse, `get`
deletes the entry and returns `null`, and the immediately following read of
the same key is a plain cache miss that leaves the store unchanged. -/
theorem c10_corrupt_cache_miss :
    ∀ {V : Type} (decode : String → Option V)
      (store : List (String × String)) (key v : String),
      (store.find? (fun kv => kv.1 == redisKey key)).map (fun kv => kv.2)
        = some v →
      v ≠ "" →
      decode v = none →
      cacheGetRaw decode store key =
        (none, store.filter (fun kv => !(kv.1 == redisKey key))) ∧
      cacheGetRaw decode
          (store.filter (fun kv => !(kv.1 == redisKey key))) key =
        (none, store.filter (fun kv => !(kv.1 == redisKey key))) := by
  intro V decode store key v hv hne hdec
  have hbe : (v == "") = false := by simpa using hne
  constructor
  · simp [cacheGetRaw, hv, hbe, hdec]
  · have hnone : ((store.filter (fun kv => !(kv.1 == redisKey key))).find?
        (fun kv => kv.1 == redisKey key)) = none := by
      rw [List.find?_eq_none]
      intro kv hkv
      have hmem := List.of_mem_filter hkv
      simpa using hmem
    simp [cacheGetRaw, hnone]

/-- A concrete deserialiser standing for `JSON.parse` into `Nat`. -/
def decodeNat7 : String → Option Nat :=
  fun s => if s == "7" then some 7 else none

/-- A cache store holding one corrupted entry. -/
def corruptStore : List (String × String) :=
  [(redisKey "analysis:1:result", "junk")]

/-- Witness for C10 at the concrete corrupted store: the corrupted entry is
deleted, `null` is returned, and the second read is a plain miss. -/
theorem c10_corrupt_cache_miss_witness :
    cacheGetRaw decodeNat7 corruptStore "analysis:1:result" =
      (none, corruptStore.filter
        (fun kv => !(kv.1 == redisKey "analysis:1:result"))) ∧
    cacheGetRaw decodeNat7
        (corruptStore.filter
          (fun kv => !(kv.1 == redisKey "analysis:1:result")))
        "analysis:1:result" =
      (none, corruptStore.filter
        (fun kv => !(kv.1 == redisKey "analysis:1:result"))) :=
  c10_corrupt_cache_miss decodeNat7 corruptStore "analysis:1:result" "junk"
    rfl (by decide) rfl

/-! ### C2 -/

/-- The state reached when variant A's poll loop processes a late-arriving
`completed` answer for job 1, which is already `cancelled` locally. -/
def stateAfterLatePoll : DBState :=
  match pollStepA stateCancelled 1 40 9 (.ok lateCompleted) with
  | .next st _ => st
  | .done st _ => st
  | .fail st _ => st

/-- C2 (code bug): neither poll loop ever consults the local job status, so
a late-arriving `completed` poll answer for the locally-cancelled job 1 is
persisted: variant A's loop inserts the reported detection and rewrites the
row to `completed`, and variant B's `completed`-event handler likewise
rewrites the status — the cancelled job's results are resurrected, contrary
to the abandon-in-place requirement. -/
theorem c2_late_poll_overwrites :
    (findJob stateAfterLatePoll.jobs 1).map (fun j => j.status) =
      some JStatus.completed ∧
    (stateAfterLatePoll.detections.filter
      (fun d => d.analysisId == 1)).length = 1 ∧
    (findJob (onCompletedB stateCancelled 1 lateCompleted 9).jobs 1).map
      (fun j => j.status) = some JStatus.completed := by
  exact ⟨rfl, rfl, rfl⟩

/-! ### C4 -/

/-- A poll body reporting less progress (30) than last observed, while the
remote task is still processing. -/
def respSlow : OkResp :=
  { status := .processing, progress := 30, totalFrames := none,
    violentFrames := none, detections := [], errorMessage := none }

/-- State in which 50 is the progress snapshot already cached for job 1. -/
def stateProgress50 : DBState :=
  { baseState with jobs := [jobProcessing1], progressCache := [(1, 50)] }

/-- C4 counterexample: variant B's poll iteration forwards any *changed*
progress value (`!==`), not only strict increases: with last observed 50 and
the remote reporting 30, the cached progress snapshot for job 1 is rewritten
from 50 down to 30 — a write although 30 is not greater than 50, and a
decrease of the observable progress. -/
theorem c4_decreasing_write_counterexample :
    lookupAssoc stateProgress50.progressCache 1 = some 50 ∧
    pollStepB stateProgress50 1 50 (.ok respSlow) =
      .next (cacheAnalysisProgress stateProgress50 1 30) 30 ∧
    lookupAssoc (cacheAnalysisProgress stateProgress50 1 30).progressCache 1 =
      some 30 := by
  exact ⟨rfl, rfl, rfl⟩

lemma findJob_updateAnalysisProgress (s : DBState) (aid : Nat) (p : Int)
    (tf vf : Option Int) (j : JobRec) (hfind : findJob s.jobs aid = some j) :
    (findJob (updateAnalysisProgress s aid p tf vf).jobs aid).map
      (fun x => x.progress) = some p := by
  have hupd := findJob_updateJob s.jobs aid (fun j =>
    { j with progress := p
           , totalFrames := match tf with
               | some n => if n == 0 then j.totalFrames else some n
               | none => j.totalFrames
           , violentFrames := match vf with
               | some n => some n
               | none => j.violentFrames }) (fun _ => rfl)
  simp only [updateAnalysisProgress, cacheAnalysisProgress]
  rw [hupd, hfind]
  rfl

/-- C4 (amended): the two variants guard progress writes differently.
Variant A's poll iteration writes only on a strict increase: while the
remote task is processing, a reported value not exceeding the last observed
one changes nothing at all, and a strictly greater one is written to the
row as the job's new progress (so within a run of variant A's loop the
stored progress is non-decreasing).  Variant B's iteration instead writes
whenever the reported value differs from the last observed one, so
remote-reported decreases are written through to the progress cache. -/
theorem c4_progress_write_amended :
    (∀ (s : DBState) (aid : Nat) (lp : Int) (now : Nat) (resp : OkResp),
        resp.status = .processing → resp.progress ≤ lp →
        pollStepA s aid lp now (.ok resp) = .next s lp) ∧
    (∀ (s : DBState) (aid : Nat) (lp : Int) (now : Nat) (resp : OkResp)
        (j : JobRec),
        resp.status = .processing → lp < resp.progress →
        findJob s.jobs aid = some j →
        pollStepA s aid lp now (.ok resp) =
          .next (updateAnalysisProgress s aid resp.progress resp.totalFrames
            resp.violentFrames) resp.progress ∧
        (findJob (updateAnalysisProgress s aid resp.progress resp.totalFrames
            resp.violentFrames).jobs aid).map (fun x => x.progress) =
          some resp.progress) ∧
    (∀ (s : DBState) (aid : Nat) (lp : Int) (resp : OkResp),
        resp.status = .processing → resp.progress ≠ lp →
        pollStepB s aid lp (.ok resp) =
          .next (cacheAnalysisProgress s aid resp.progress) resp.progress) := by
  refine ⟨?_, ?_, ?_⟩
  · intro s aid lp now resp hst hle
    simp [pollStepA, hst, not_lt.mpr hle]
  · intro s aid lp now resp j hst hlt hfind
    exact ⟨by simp [pollStepA, hst, hlt],
      findJob_updateAnalysisProgress s aid resp.progress resp.totalFrames
        resp.violentFrames j hfind⟩
  · intro s aid lp resp hst hne
    simp [pollStepB, hst, hne]

/-- Witness for the amended C4: with last observed progress 50 and the
remote reporting 30 while processing, variant A's iteration is a no-op,
while variant B's iteration rewrites the cached snapshot to 30. -/
theorem c4_progress_write_amended_witness :
    pollStepA stateProcessing 1 50 9 (.ok respSlow) =
      .next stateProcessing 50 ∧
    pollStepB stateProcessing 1 50 (.ok respSlow) =
      .next (cacheAnalysisProgress stateProcessing 1 30) 30 :=
  ⟨c4_progress_write_amended.1 stateProcessing 1 50 9 respSlow rfl
    (by decide),
   c4_progress_write_amended.2.2 stateProcessing 1 50 respSlow rfl
    (by decide)⟩

/-! ### C6 -/

/-- C6 counterexample: variant A's failure bookkeeping — reached here
through the non-retryable 404 poll error — sets `status = failed` and the
error message but never writes `completed_at`: the failed job 1 still has
`completedAt = none` after the transition. -/
theorem c6_no_completed_at_counterexample :
    pollStepA stateProcessing 1 40 9 .notFound404 =
      .fail (failJobA stateProcessing 1 "Analysis not found in AI service")
        "Analysis not found in AI service" ∧
    (findJob (failJobA stateProcessing 1
        "Analysis not found in AI service").jobs 1).map
      (fun j => (j.status, j.errorMessage, j.completedAt)) =
      some (JStatus.failed, some "Analysis not found in AI service", none) := by
  exact ⟨rfl, rfl⟩

/-- C6 (amended): only variant B stamps failures.  Variant B's
`failed`-event handler sets the failure message and `completed_at = now`
together with the `failed` status; variant A's failure path (its poll-loop
catch block, duplicated by its `failed`-event handler) sets only the status
and the message, leaving `completed_at` exactly as it was — a job failed
through variant A never receives a completion timestamp at that
transition. -/
theorem c6_failed_transition_amended :
    (∀ (s : DBState) (aid : Nat) (msg : String) (now : Nat) (j : JobRec),
        findJob s.jobs aid = some j →
        findJob (onFailedB s aid msg now).jobs aid =
          some { j with status := .failed, errorMessage := some msg,
                        completedAt := some now }) ∧
    (∀ (s : DBState) (aid : Nat) (msg : String) (j : JobRec),
        findJob s.jobs aid = some j →
        findJob (failJobA s aid msg).jobs aid =
          some { j with status := .failed, errorMessage := some msg }) := by
  constructor
  · intro s aid msg now j hfind
    have hupd := findJob_updateJob s.jobs aid (fun x =>
      { x with status := JStatus.failed, errorMessage := some msg,
               completedAt := some now }) (fun _ => rfl)
    simp only [onFailedB]
    rw [hupd, hfind]
    rfl
  · intro s aid msg j hfind
    have hupd := findJob_updateJob s.jobs aid (fun x =>
      { x with status := JStatus.failed, errorMessage := some msg })
      (fun _ => rfl)
    simp only [failJobA]
    rw [hupd, hfind]
    rfl

/-- Witness for the amended C6 on the concrete processing job 1: variant B
stamps `completed_at = 9`; variant A leaves it `none`. -/
theorem c6_failed_transition_amended_witness :
    findJob (onFailedB stateProcessing 1 "decode error" 9).jobs 1 =
      some { jobProcessing1 with
             status := .failed, errorMessage := some "decode error",
             completedAt := some 9 } ∧
    findJob (failJobA stateProcessing 1 "decode error").jobs 1 =
      some { jobProcessing1 with
             status := .failed, errorMessage := some "decode error" } :=
  ⟨c6_failed_transition_amended.1 stateProcessing 1 "decode error" 9
    jobProcessing1 rfl,
   c6_failed_transition_amended.2 stateProcessing 1 "decode error"
    jobProcessing1 rfl⟩

/-! ### C7 -/

/-- C7 counterexample: after a successful stop, job 1 is `cancelled`, but a
second `stopAnalysis` is not a silent no-op.  Variant A rejects it with the
400 "Analysis is not in progress" error; variant B accepts it again and
rewrites `completed_at` from the first cancellation's 5 to the second
call's 9. -/
theorem c7_stop_twice_counterexample :
    (stopAnalysisA (stopAnalysisA statePending 1).2 1).1 =
      StopResultA.notInProgress ∧
    (findJob (stopAnalysisB statePending 1 5).2.jobs 1).map
      (fun j => j.completedAt) = some (some 5) ∧
    (findJob (stopAnalysisB (stopAnalysisB statePending 1 5).2 1 9).2.jobs
        1).map (fun j => j.completedAt) = some (some 9) := by
  exact ⟨rfl, rfl, rfl⟩

/-- C7 (amended): a second `stopAnalysis` on a cancelled job is not an
error-free no-op.  In variant A it performs no mutation but is rejected with
the 400 "Analysis is not in progress" error; in variant B it is accepted
again and re-runs the cancellation update, rewriting `completed_at` (and the
error message) with the second call's clock. -/
theorem c7_stop_idempotence_amended :
    (∀ (s : DBState) (aid : Nat) (j : JobRec),
        findJob s.jobs aid = some j → j.status = .cancelled →
        stopAnalysisA s aid = (.notInProgress, s)) ∧
    (∀ (s : DBState) (aid now : Nat) (j : JobRec),
        findJob s.jobs aid = some j → j.status = .cancelled →
        (stopAnalysisB s aid now).1 = .stopped ∧
        findJob (stopAnalysisB s aid now).2.jobs aid =
          some { j with status := .cancelled, completedAt := some now,
                        errorMessage := some "Analysis cancelled by user" }) := by
  constructor
  · intro s aid j hfind hst
    simp [stopAnalysisA, hfind, hst]
  · intro s aid now j hfind hst
    have hupd := findJob_updateJob s.jobs aid (fun x =>
      { x with status := JStatus.cancelled, completedAt := some now,
               errorMessage := some "Analysis cancelled by user" })
      (fun _ => rfl)
    constructor
    · simp [stopAnalysisB, hfind, hst]
    · simp only [stopAnalysisB, hfind, hst, deleteAnalysisCache]
      rw [if_neg (by decide : ¬ (JStatus.cancelled = JStatus.completed)),
        if_neg (by decide : ¬ (JStatus.cancelled = JStatus.failed))]
      show findJob (updateJob s.jobs aid _) aid = _
      rw [hupd, hfind]
      rfl

/-- Witness for the amended C7 on the concrete cancelled job 1. -/
theorem c7_stop_idempotence_amended_witness :
    stopAnalysisA stateCancelled 1 = (.notInProgress, stateCancelled) ∧
    (stopAnalysisB stateCancelled 1 9).1 = StopResultB.stopped :=
  ⟨c7_stop_idempotence_amended.1 stateCancelled 1 jobCancelled1 rfl rfl,
   (c7_stop_idempotence_amended.2 stateCancelled 1 9 jobCancelled1 rfl
     rfl).1⟩

/-! ### C8 -/

/-- C8 counterexample: ten consecutive non-404 transport errors leave
variant A's poll loop still polling, with the state untouched and no
failure raised — under the claim, a bounded number of retries (the queue
policy's own bound being 3 attempts) would have been exhausted and a
failure raised well before the tenth consecutive error. -/
theorem c8_unbounded_retry_counterexample :
    runPollA stateProcessing 1 40 9
      (List.replicate 10 (.transport "connect ECONNREFUSED")) =
      .polling stateProcessing 40 := by
  rfl

/-- C8 (amended): a 404 poll error raises immediately in both variants and
is never retried; but neither variant performs bounded retries of other
transport errors.  Variant A swallows every non-404 transport error and
keeps polling — after any number `n` of consecutive such errors the loop is
still polling with nothing persisted and no failure raised — while variant
B rethrows any transport error immediately (zero retries). -/
theorem c8_poll_error_amended :
    (∀ (s : DBState) (aid : Nat) (lp : Int) (now : Nat)
        (rest : List PollResp),
        runPollA s aid lp now (.notFound404 :: rest) =
          .failedRun (failJobA s aid "Analysis not found in AI service")
            "Analysis not found in AI service") ∧
    (∀ (n : Nat) (s : DBState) (aid : Nat) (lp : Int) (now : Nat)
        (msg : String),
        runPollA s aid lp now (List.replicate n (.transport msg)) =
          .polling s lp) ∧
    (∀ (s : DBState) (aid : Nat) (lp : Int) (msg : String),
        pollStepB s aid lp (.transport msg) = .raise s msg) ∧
    (∀ (s : DBState) (aid : Nat) (lp : Int),
        pollStepB s aid lp .notFound404 =
          .raise s "AI analysis not found") := by
  refine ⟨fun s aid lp now rest => rfl, ?_, fun s aid lp msg => rfl,
    fun s aid lp => rfl⟩
  intro n
  induction n with
  | zero => intro s aid lp now msg; rfl
  | succ k ih =>
    intro s aid lp now msg
    rw [List.replicate_succ]
    show runPollA s aid lp now (PollResp.transport msg :: _) = _
    simp only [runPollA, pollStepA]
    exact ih s aid lp now msg

end ViolenceDetection
